import Mathlib

/-!
Verification development for the TDL (Type Description Language) parser of
`delphin/tdl.py`.  The definitions below are a shallow embedding of the
parser's data model and operations; theorems settle the specified
properties against those definitions.
-/

set_option linter.unusedVariables false

namespace Tdl

/-- Errors raised by the embedded code.  `tdlError` and `tdlParsingError`
correspond to the exception classes of the source; `attributeError`,
`typeError`, `nameError`, `valueError`, `indexError` and `stopIteration`
model the corresponding built-in Python exceptions.  `assertionError`
carries the tokens remaining after the failed pop (used by
`_parse_typedef` to build its message).  `outOfFuel` is an artefact of the
fuel-based embedding of unboundedly recursive parsing functions; it is
never produced when enough fuel is supplied. -/
inductive Err where
  | tdlError (msg : String)
  | tdlParsingError (msg : String)
  | attributeError
  | typeError
  | nameError
  | valueError
  | indexError
  | stopIteration
  | assertionError (remaining : List String)
  | outOfFuel
deriving DecidableEq

/-- Values stored inside a feature structure.  `node` is a nested
feature structure (an `AVM` or a `FeatureStructure.default()`
intermediate), `atom` is a plain Python string such as `*null*` or
`*list*`, `coref` is a `Coreference` term, `conj` a `Conjunction`
value, and `term` an opaque parsed term payload (e.g. a
`TypeIdentifier`), which the list machinery never inspects. -/
inductive FVal where
  | node (m : List (String × FVal))
  | atom (s : String)
  | coref (tag : Option String)
  | conj (ts : List FVal)
  | term (n : Nat)

/-- Insertion-ordered association update, as for a Python `dict`:
replacing an existing key keeps its position, a new key is appended. -/
def assocSet : List (String × FVal) → String → FVal → List (String × FVal)
  | [], k, v => [(k, v)]
  | (k2, v2) :: rest, k, v =>
    if k2 = k then (k2, v) :: rest else (k2, v2) :: assocSet rest k v

/-- Association lookup, as for Python `dict.get` (no case folding is
applied: every key reaching the list machinery is already upper case). -/
def assocGet : List (String × FVal) → String → Option FVal
  | [], _ => none
  | (k2, v2) :: rest, k => if k2 = k then some v2 else assocGet rest k

/-- Modelled from the spec: `delphin.tfs.FeatureStructure.__setitem__` is
not under `src/`.  Per the spec, an `AVM` is an ordered mapping from
feature-path string to value and `A.B value` is equivalent to
`A [ B value ]`, so a dotted key is split and written through nested
structures, creating `default()` (empty) intermediate structures on the
way; the key is given here as its list of dot-separated segments.
Writing through an existing non-structure value is a Python
`TypeError`, rendered as `none`. -/
def fsSetSegs : List (String × FVal) → List String → FVal → Option (List (String × FVal))
  | _, [], _ => none
  | m, [k], v => some (assocSet m k v)
  | m, k :: k2 :: rest, v =>
    match assocGet m k with
    | some (.node sub) =>
      (fsSetSegs sub (k2 :: rest) v).map (fun sub2 => assocSet m k (.node sub2))
    | some _ => none
    | none =>
      (fsSetSegs [] (k2 :: rest) v).map (fun sub2 => assocSet m k (.node sub2))

mutual
/-- Structural size of a feature value (used for fuel bounds). -/
def fvSize : FVal → Nat
  | .node m => mapFvSize m + 1
  | .atom _ => 1
  | .coref _ => 1
  | .conj _ => 1
  | .term _ => 1

/-- Structural size of a feature map. -/
def mapFvSize : List (String × FVal) → Nat
  | [] => 0
  | e :: rest => fvSize e.2 + mapFvSize rest + 1
end

/-- State of a `ConsList` object: `_avm` (which `terminate` may set to
`None`), `_last_path` (kept as the list of dot-separated segments of the
source's dotted string) and the `terminated` flag. -/
structure ConsListS where
  avm : Option (List (String × FVal))
  lastPath : List String
  terminated : Bool

/-- `ConsList.append`: writes `value` at `self._last_path + '.' + FIRST`
(no leading dot when the path is empty) and advances `_last_path` to the
next `REST`; raises `TdlError` when the AVM is `None` or the list is
terminated. -/
def consAppend (s : ConsListS) (value : FVal) : Except Err ConsListS :=
  match s.avm with
  | some m =>
    if s.terminated then .error (.tdlError "Cannot append to a closed list.")
    else
      match fsSetSegs m (s.lastPath ++ ["FIRST"]) value with
      | some m2 =>
        .ok { avm := some m2, lastPath := s.lastPath ++ ["REST"],
              terminated := s.terminated }
      | none => .error .typeError
  | none => .error (.tdlError "Cannot append to a closed list.")

/-- Whether `end == LIST_TYPE` holds in Python (`end` equals the string
`*list*`). -/
def endIsList : FVal → Bool
  | .atom s => s == "*list*"
  | _ => false

/-- Whether `end == EMPTY_LIST_TYPE` holds in Python (`end` equals the
string `*null*`). -/
def endIsNull : FVal → Bool
  | .atom s => s == "*null*"
  | _ => false

/-- `ConsList.terminate`: for a non-empty list writes `end` at
`self._last_path + '.' + REST`; for an empty list `*null*` sets the AVM
to `None` (after asserting it is empty), `*list*` leaves it unchanged and
anything else raises `TdlError`.  Finally `terminated` is set to
`end != LIST_TYPE`. -/
def consTerminate (s : ConsListS) (end_ : FVal) : Except Err ConsListS :=
  if s.lastPath ≠ [] then
    match s.avm with
    | some m =>
      match fsSetSegs m (s.lastPath ++ ["REST"]) end_ with
      | some m2 =>
        .ok { avm := some m2, lastPath := s.lastPath,
              terminated := !(endIsList end_) }
      | none => .error .typeError
    | none => .error .typeError
  else if endIsNull end_ then
    match s.avm with
    | some m =>
      match m with
      | [] => .ok { avm := none, lastPath := s.lastPath,
                    terminated := !(endIsList end_) }
      | _ => .error (.assertionError [])
    | none => .error .typeError
  else if endIsList end_ then
    .ok { s with terminated := !(endIsList end_) }
  else
    .error (.tdlError "Empty list must be *list* or *null*")

/-- Folding `ConsList.append` over the constructor's `values`. -/
def consAppendAll (s : ConsListS) : List FVal → Except Err ConsListS
  | [] => .ok s
  | v :: rest =>
    match consAppend s v with
    | .ok s2 => consAppendAll s2 rest
    | .error e => .error e

/-- `ConsList.__init__(values, end)`: start from an empty open list,
append each value, then terminate. -/
def consListMk (values : List FVal) (end_ : FVal) : Except Err ConsListS :=
  match consAppendAll { avm := some [], lastPath := [], terminated := false } values with
  | .ok s => consTerminate s end_
  | .error e => .error e

/-- `_collect_list_items(d)` with explicit fuel (the source recursion is
bounded by the structure's size, supplied by the wrapper below): stop on
`None` or on a structure without `FIRST`; collect `(FIRST, d[FIRST])`,
then the items of `d.get(REST)` with `REST.`-prefixed paths.  Calling
`.get` on a non-structure value is a Python `AttributeError`. -/
def collectItemsF : Nat → Option FVal → Except Err (List (String × FVal))
  | 0, _ => .error .outOfFuel
  | _ + 1, none => .ok []
  | fuel + 1, some (.node m) =>
    match assocGet m "FIRST" with
    | none => .ok []
    | some v =>
      match collectItemsF fuel (assocGet m "REST") with
      | .error e => .error e
      | .ok rest => .ok (("FIRST", v) :: rest.map (fun e => ("REST." ++ e.1, e.2)))
  | _ + 1, some (.atom _) => .error .attributeError
  | _ + 1, some (.coref _) => .error .attributeError
  | _ + 1, some (.conj _) => .error .attributeError
  | _ + 1, some (.term _) => .error .attributeError

/-- Size of an optional feature value, for fuel computation. -/
def osize : Option FVal → Nat
  | none => 0
  | some v => fvSize v

/-- `_collect_list_items(d)`: the fuel `osize d + 1` strictly bounds the
recursion depth, so the result equals the source's unbounded recursion. -/
def collectItems (d : Option FVal) : Except Err (List (String × FVal)) :=
  collectItemsF (osize d + 1) d

/-- `ConsList.values()`: `[val for _, val in _collect_list_items(self)]`.
Modelled from the spec for the `None`-AVM case: per the spec a `None` map
is an explicitly empty/closed structure (`delphin.tfs.FeatureStructure`
is not under `src/`), so `get` finds no `FIRST` there and the collection
is empty. -/
def consValues (s : ConsListS) : Except Err (List FVal) :=
  match s.avm with
  | none => .ok []
  | some m => (collectItems (some (.node m))).map (fun l => l.map Prod.snd)

/-- State of a `DiffList` object (its feature map; the keys are `LIST`
and `LAST`). -/
structure DiffListS where
  avm : List (String × FVal)

/-- `DiffList.__init__(values)`: a tagless `Coreference` `cr` is created;
for non-empty `values` a `ConsList` terminated with `cr` supplies the
`LIST` map, otherwise `LIST` is the bare conjunction `[cr]`; `LAST` is
always the conjunction `[cr]`. -/
def diffListMk (values : List FVal) : Except Err DiffListS :=
  let cr : FVal := .coref none
  match values with
  | [] => .ok { avm := [("LIST", .conj [cr]), ("LAST", .conj [cr])] }
  | _ =>
    match consListMk values cr with
    | .error e => .error e
    | .ok tmplist =>
      match tmplist.avm with
      | some m => .ok { avm := [("LIST", .node m), ("LAST", .conj [cr])] }
      | none => .error .typeError

/-- `DiffList.values()`:
`[val for _, val in _collect_list_items(self.get('LIST'))]`. -/
def diffListValues (d : DiffListS) : Except Err (List FVal) :=
  (collectItems (assocGet d.avm "LIST")).map (fun l => l.map Prod.snd)

/-! The `Conjunction` class over Python values (for `add` and
`string`). -/

/-- A Python value as seen by `Conjunction.add`: the `Term` subclasses
(`TypeIdentifier`, `String`, `Regex`, `AVM`, `Coreference`), a
`Conjunction` (which is not a `Term`: it subclasses `object`), or some
other Python object (`other`), which is neither. -/
inductive PyVal where
  | typeIdentifier (text : String) (doc : Option String)
  | strTerm (text : String) (doc : Option String)
  | regexTerm (text : String) (doc : Option String)
  | avmT (n : Nat)
  | corefT (tag : Option String)
  | conj (terms : List PyVal)
  | other (n : Nat)

/-- `isinstance(v, Term)`: true for every variant except `Conjunction`
(not a `Term` subclass) and non-`Term` objects. -/
def PyVal.isTerm : PyVal → Bool
  | .conj _ => false
  | .other _ => false
  | _ => true

/-- `isinstance(v, String)` (the `String` term class). -/
def PyVal.isStrTerm : PyVal → Bool
  | .strTerm _ _ => true
  | _ => false

mutual
/-- `Conjunction.add(term)` acting on the `_terms` list: a `Conjunction`
argument is flattened by adding each of its terms recursively, a `Term`
is appended, and anything else raises `TypeError`. -/
def conjAdd : List PyVal → PyVal → Except Err (List PyVal)
  | ts, .conj inner => conjAddAll ts inner
  | ts, v => if v.isTerm then .ok (ts ++ [v]) else .error .typeError

/-- `for term_ in term.terms: self.add(term_)`. -/
def conjAddAll : List PyVal → List PyVal → Except Err (List PyVal)
  | ts, [] => .ok ts
  | ts, v :: rest =>
    match conjAdd ts v with
    | .ok ts2 => conjAddAll ts2 rest
    | .error e => .error e
end

/-- `Conjunction.__init__(terms)`: `add` each given term to an empty
`_terms` list. -/
def conjMk (terms : List PyVal) : Except Err (List PyVal) :=
  conjAddAll [] terms

/-- `Conjunction.string()` as written in the source: the loop body tests
`isinstance(t, String)` where `t` is an unbound name, so the first
iteration raises `NameError`; only an empty `_terms` list reaches the
`return None` at the end. -/
def conjString (terms : List PyVal) : Except Err (Option PyVal) :=
  match terms with
  | [] => .ok none
  | _ :: _ => .error .nameError

/-- The behavior the spec intends for `Conjunction.string()` (named
after the spec's words, for comparison with `conjString` above): the
first `String` term of the conjunction, or `None`. -/
def conjStringIntended (terms : List PyVal) : Option PyVal :=
  terms.find? PyVal.isStrTerm

mutual
/-- Structural size of a Python value (for induction bounds). -/
def pySize : PyVal → Nat
  | .conj ts => pyListSize ts + 1
  | .typeIdentifier _ _ => 1
  | .strTerm _ _ => 1
  | .regexTerm _ _ => 1
  | .avmT _ => 1
  | .corefT _ => 1
  | .other _ => 1

/-- Structural size of a list of Python values. -/
def pyListSize : List PyVal → Nat
  | [] => 0
  | v :: rest => pySize v + pyListSize rest + 1
end

/-! `TypeTerm` and its subclasses (`TypeIdentifier`, `String`, `Regex`)
subclass the Python `str` type. -/

/-- The three `TypeTerm` subclasses. -/
inductive TTVariant where
  | typeIdentifier
  | strClass
  | regexClass
deriving DecidableEq

/-- A `TypeTerm` value: its subclass, its text payload (the underlying
`str` content created by `str.__new__(cls, string)`) and the `docstring`
attribute stored by `Term.__init__`. -/
structure TypeTermV where
  variant : TTVariant
  text : String
  docstring : Option String

/-- Python `==` between two `TypeTerm` values: neither `Term` nor
`TypeTerm` overrides `__eq__`, so `str.__eq__` applies and compares the
character content only. -/
def ttEq (a b : TypeTermV) : Bool :=
  a.text == b.text

/-- Python `==` between a `TypeTerm` and a plain `str`: again
`str.__eq__`, comparing character content. -/
def ttEqStr (a : TypeTermV) (s : String) : Bool :=
  a.text == s

/-! `_make_coreferences`: merging the `(tag, paths)` records collected
during a definition's parse. -/

/-- `defaultdict(list)` extension: append `paths` to the entry for `cr`,
keeping first-insertion key order (as a Python dict does). -/
def extendEntry : List (String × List String) → String → List String → List (String × List String)
  | [], cr, paths => [(cr, paths)]
  | (k, ps) :: rest, cr, paths =>
    if k = cr then (k, ps ++ paths) :: rest
    else (k, ps) :: extendEntry rest cr paths

/-- The first statement of `_make_coreferences`: each record's path
chunk lists joined with dots
(`corefs = [(cr, ['.'.join(p) for p in paths]) for cr, paths in corefs]`). -/
def joinedView (corefs : List (Option String × List (List String))) :
    List (Option String × List String) :=
  corefs.map (fun e => (e.1, e.2.map (fun p => String.intercalate "." p)))

/-- The merged record list `list(merged.items()) + unlabeled`: labeled
records are merged by tag into `merged` in first-occurrence order,
unlabeled records (tag `None`, e.g. from diff lists) are kept as-is and
appended in iteration order. -/
def mergedView (corefs : List (Option String × List (List String))) :
    List (Option String × List String) :=
  let joined := joinedView corefs
  let merged := joined.foldl
    (fun acc e =>
      match e.1 with
      | none => acc
      | some cr => extendEntry acc cr e.2) []
  merged.map (fun e => (some e.1, e.2)) ++ joined.filter (fun e => e.1.isNone)

/-- Python `repr` of a list of strings, as used in the solitary
coreference message. -/
def reprStrList (ps : List String) : String :=
  "[" ++ String.intercalate ", " (ps.map (fun s => "\x27" ++ s ++ "\x27")) ++ "]"

/-- The message of the `TdlError` raised by `_make_coreferences`.  In the
source, `cr` and `paths` in the format call are the leaked loop variables
of the merge loop, i.e. the LAST record of the dot-joined input list (the
generator expression inside `all` has its own scope), not the offending
record. -/
def solitaryMsg (corefs : List (Option String × List (List String))) : String :=
  match (joinedView corefs).getLast? with
  | some e =>
    "Solitary coreference: "
      ++ (match e.1 with | none => "None" | some s => s)
      ++ "\n" ++ reprStrList e.2
  | none => "Solitary coreference: "

/-- `_make_coreferences(corefs)`: join each record's paths, merge labeled
records by tag, append unlabeled ones, then raise `TdlError` unless every
resulting record has at least two paths (a length check on the list, with
multiplicity). -/
def makeCoreferences (corefs : List (Option String × List (List String))) :
    Except Err (List (Option String × List String)) :=
  let out := mergedView corefs
  if out.all (fun e => decide (2 ≤ e.2.length)) then .ok out
  else .error (.tdlError (solitaryMsg corefs))

/-! The token-stream pipeline's affix handling (`_parse_tdl_affixes`) and
`InflRule` construction. -/

/-- A token of the token-stream pipeline: lexer group id, matched text,
line number. -/
structure Tok where
  gid : Nat
  text : String
  line : Nat

/-- Python `token.split(None, 1)` followed by unpacking into two parts:
skip leading whitespace, take the first whitespace-free field, skip the
separating whitespace run, and keep the remainder; unpacking fails
(`ValueError`, rendered `none`) when there is no second field. -/
def splitNone1 (s : String) : Option (String × String) :=
  let cs := s.toList.dropWhile (fun c => c.isWhitespace)
  let m := cs.takeWhile (fun c => !c.isWhitespace)
  let r := (cs.drop m.length).dropWhile (fun c => c.isWhitespace)
  match m, r with
  | [], _ => none
  | _, [] => none
  | m, r => some (String.mk m, String.mk r)

/-- The `while nextgid == 22` loop of `_parse_tdl_affixes`: shift
affix-subpattern tokens, splitting each into `(match, replacement)`.
Modelled from the spec for the lookahead: `delphin.util.LookaheadIterator`
is not under `src/`; per the spec the grammar engine consumes the token
stream with one-significant-token lookahead and comments are transparently
skipped, so the stream here is given with comments already dropped and a
shift pops the head token. -/
def parseTdlAffixLoop : List Tok → List (String × String) →
    Except Err (List (String × String) × List Tok)
  | t :: rest, acc =>
    if t.gid = 22 then
      match splitNone1 t.text with
      | some p => parseTdlAffixLoop rest (acc ++ [p])
      | none => .error .valueError
    else .ok (acc, t :: rest)
  | [], acc => .ok (acc, [])

/-- `_parse_tdl_affixes(tokens)`: shift the affix marker (asserting
`gid == 21`; its text is `prefix` or `suffix`), then collect the
subpattern pairs. -/
def parseTdlAffixes (ts : List Tok) :
    Except Err (String × List (String × String) × List Tok) :=
  match ts with
  | t :: rest =>
    if t.gid = 21 then
      match parseTdlAffixLoop rest [] with
      | .ok p => .ok (t.text, p.1, p.2)
      | .error e => .error e
    else .error (.assertionError [])
  | [] => .error .stopIteration

/-- `TdlType.__init__(self, identifier, definition, ...)` begins with
`TdlDefinition.__init__(self, definition.supertypes, ...)`.  In the
affix-rule branch of `_parse_tdl`, `definition` is the freshly parsed
new-style `Conjunction`, whose class defines no `supertypes` attribute
(only `_terms` and the methods `add`/`types`/`features`/`string`), so
the attribute access raises `AttributeError`. -/
def conjSupertypesAttr (terms : List PyVal) : Except Err (List String) :=
  .error .attributeError

/-- The record `InflRule` would produce if its construction succeeded. -/
structure InflRuleRes where
  identifier : String
  affixType : String
  affix : List (String × String)

/-- `InflRule.__init__(identifier, affix_type, affix, terms)`: delegates
to `TdlType.__init__(self, identifier, terms)` (note: not
`Type.__init__`, although `InflRule` subclasses the new-style `Type`),
which immediately reads `terms.supertypes`; only if that succeeded would
`affix_type` and `affix` be stored. -/
def inflRuleMk (identifier : String) (affixType : String)
    (affix : List (String × String)) (terms : List PyVal) :
    Except Err InflRuleRes :=
  match conjSupertypesAttr terms with
  | .error e => .error e
  | .ok _ =>
    .ok { identifier := identifier, affixType := affixType, affix := affix }

/-! The default (line-block) parsing pipeline used by `parse`:
`_parse_typedef`, `_parse_conjunction` and friends, over deques of
string tokens. -/

/-- Which class `_parse_conjunction` instantiates (`cls`). -/
inductive ClsTag where
  | tdlDefinition
  | tdlConsList
  | tdlDiffList
deriving DecidableEq

mutual
/-- A value produced by `_parse_conjunction`: a plain string token (the
quoted-value early return), Python `None`, or a `TdlDefinition` (also
covering its `TdlConsList`/`TdlDiffList` subclasses). -/
inductive OldVal where
  | pystr : String → OldVal
  | pynone : OldVal
  | pydef : OldDef → OldVal

/-- A `TdlDefinition`: its class, its `supertypes` list and its `_avm`
(an insertion-ordered map whose keys are single path segments; dotted
keys are split by `__setitem__` before storage). -/
inductive OldDef where
  | mk : ClsTag → List String → List (String × OldVal) → OldDef
end

def OldDef.cls : OldDef → ClsTag
  | .mk c _ _ => c

def OldDef.supertypes : OldDef → List String
  | .mk _ s _ => s

def OldDef.avm : OldDef → List (String × OldVal)
  | .mk _ _ m => m

/-- Ordered association update over `OldVal` maps (Python dict). -/
def assocSetO : List (String × OldVal) → String → OldVal → List (String × OldVal)
  | [], k, v => [(k, v)]
  | (k2, v2) :: rest, k, v =>
    if k2 = k then (k2, v) :: rest else (k2, v2) :: assocSetO rest k v

/-- Association lookup over `OldVal` maps. -/
def assocGetO : List (String × OldVal) → String → Option OldVal
  | [], _ => none
  | (k2, v2) :: rest, k => if k2 = k then some v2 else assocGetO rest k

/-- Modelled from the spec: `delphin.tfs.FeatureStructure.__setitem__`
(not under `src/`) for the old pipeline's `TdlDefinition` values; dotted
keys (given as segment lists) are written through nested definitions,
with `TdlDefinition()` defaults for missing intermediates; writing
through a non-definition value is a Python error, rendered `none`. -/
def oldSetSegs : List (String × OldVal) → List String → OldVal → Option (List (String × OldVal))
  | _, [], _ => none
  | m, [k], v => some (assocSetO m k v)
  | m, k :: k2 :: rest, v =>
    match assocGetO m k with
    | some (.pydef d) =>
      (oldSetSegs d.avm (k2 :: rest) v).map
        (fun sub2 => assocSetO m k (.pydef (OldDef.mk d.cls d.supertypes sub2)))
    | some _ => none
    | none =>
      (oldSetSegs [] (k2 :: rest) v).map
        (fun sub2 => assocSetO m k (.pydef (OldDef.mk .tdlDefinition [] sub2)))

/-- Fold `__setitem__` over a feature-value list (`FeatureStructure.__init__`). -/
def oldSetAll : List (String × OldVal) → List (List String × OldVal) → Option (List (String × OldVal))
  | m, [] => some m
  | m, (segs, v) :: rest =>
    match oldSetSegs m segs v with
    | some m2 => oldSetAll m2 rest
    | none => none

/-- `cls(supertypes, features)`: construct a `TdlDefinition` (or
subclass) by `__setitem__`-ing each feature-value pair (`features or []`
handles `None`). -/
def mkOldDef (cls : ClsTag) (sts : List String)
    (featvals : List (List String × OldVal)) : Option OldDef :=
  (oldSetAll [] featvals).map (OldDef.mk cls sts)

/-- `token[:1] in ('\x27"')`: the first character is a single or double
quote (an empty token would vacuously pass Python's substring test). -/
def firstCharQuote (s : String) : Bool :=
  match s.toList with
  | c :: _ => c == '\'' || c == '"'
  | [] => true

/-- `token.startswith('"""')`. -/
def startsTriple (s : String) : Bool :=
  match s.toList with
  | '"' :: '"' :: '"' :: _ => true
  | _ => false

/-- `token.endswith('"""')`. -/
def endsTriple (s : String) : Bool :=
  match s.toList.reverse with
  | '"' :: '"' :: '"' :: _ => true
  | _ => false

/-- `token.startswith('#')`. -/
def startsHash (s : String) : Bool :=
  match s.toList with
  | '#' :: _ => true
  | [] => false
  | _ :: _ => false

/-- Python `token[3:-3]` (docstring content). -/
def strSlice3 (s : String) : String :=
  String.mk ((s.toList.drop 3).take (s.toList.length - 6))

/-- `_parse_docstring(tokens)`: assert the head token ends with `"""`
(the failing assert leaves the deque untouched), pop it and strip the
delimiters. -/
def parseDocstring (ts : List String) : Except Err (String × List String) :=
  match ts with
  | t :: rest =>
    if endsTriple t then .ok (strSlice3 t, rest)
    else .error (.assertionError (t :: rest))
  | [] => .error .indexError

/-- `_parse_affixes(tokens)` of the line-block pipeline: without an
affix marker it returns `None`; with one, `affixes = []` and the marker
is popped, but the first `(`-led subpattern reaches
`affixes.append(tokens.popleft(), tokens.popleft())` — `list.append`
takes one argument, so Python raises `TypeError`. -/
def parseAffixes (ts : List String) :
    Except Err (Option (List (String × String)) × List String) :=
  match ts with
  | [] => .error .indexError
  | t :: rest =>
    if t = "%prefix" ∨ t = "%suffix" then
      match rest with
      | "(" :: _ => .error .typeError
      | [] => .error .indexError
      | _ :: _ => .ok (some [], rest)
    else .ok (none, t :: rest)

/-- Result of `_parse_conjunction`: the value (`tdldef`), the collected
coreference records (tag, list of path-chunk lists), the docstrings, and
the remaining tokens. -/
structure ConjOut where
  val : OldVal
  corefs : List (Option String × List (List String))
  doc : List String
  rest : List String

/-- Membership in `('>', '.', '...')` (the cons-list `break_on`). -/
def consBreak (t : String) : Bool :=
  t == ">" || t == "." || t == "..."

/-- Membership in the STRING `'!>'` (the diff-list `break_on` is written
as `('!>')`, a parenthesized string, so Python's `in` is a substring
test): true for `'!'`, `'>'`, `'!>'` and the empty string. -/
def diffBreak (t : String) : Bool :=
  t == "!" || t == ">" || t == "!>" || t == ""

/-- The attribute-path loop of `_parse_attr_val`:
`while tokens[0] == '.': tokens.popleft(); path.append(tokens.popleft())`. -/
def attrPathLoop (path : List String) : List String → Except Err (List String × List String)
  | [] => .error .indexError
  | "." :: [] => .error .indexError
  | "." :: p :: rest2 => attrPathLoop (path ++ [p]) rest2
  | ts => .ok (path, ts)

mutual
/-- `_parse_conjunction(tokens)` (fuel bounds the recursion): a leading
quoted value returns the raw token; a docstring directly followed by `.`
returns an empty definition with that docstring; otherwise a virtual
leading `&` is pushed and the conjunction loop runs. -/
def parseConjunction : Nat → List String → Except Err ConjOut
  | 0, _ => .error .outOfFuel
  | fuel + 1, ts =>
    match ts with
    | [] => .error .indexError
    | t :: rest =>
      if firstCharQuote t && !(startsTriple t) then
        .ok ⟨.pystr t, [], [], rest⟩
      else if startsTriple t then
        match rest with
        | [] => .error .indexError
        | t2 :: _ =>
          if t2 = "." then
            match parseDocstring ts with
            | .ok (d, ts1) =>
              .ok ⟨.pydef (OldDef.mk .tdlDefinition [] []), [], [d], ts1⟩
            | .error e => .error e
          else conjLoop fuel [] (some []) [] [] .tdlDefinition ("&" :: ts)
      else conjLoop fuel [] (some []) [] [] .tdlDefinition ("&" :: ts)

/-- The `while tokens[0] == '&'` loop head: on `&` pop it and run the
body; otherwise build `tdldef` (`None` when `features` is `None` and the
class is plain `TdlDefinition`, else `cls(supertypes, features)`). -/
def conjLoop : Nat → List String → Option (List (List String × OldVal)) →
    List (Option String × List (List String)) → List String → ClsTag →
    List String → Except Err ConjOut
  | 0, _, _, _, _, _, _ => .error .outOfFuel
  | fuel + 1, sts, fo, corefs, doc, cls, ts =>
    match ts with
    | [] => .error .indexError
    | t :: rest =>
      if t = "&" then conjBody fuel sts fo corefs doc cls rest
      else
        match fo, cls with
        | none, .tdlDefinition => .ok ⟨.pynone, corefs, doc, ts⟩
        | _, _ =>
          match mkOldDef cls sts (fo.getD []) with
          | some d => .ok ⟨.pydef d, corefs, doc, ts⟩
          | none => .error .typeError

/-- Loop body, first half: an optional docstring is popped into `doc`. -/
def conjBody : Nat → List String → Option (List (List String × OldVal)) →
    List (Option String × List (List String)) → List String → ClsTag →
    List String → Except Err ConjOut
  | 0, _, _, _, _, _, _ => .error .outOfFuel
  | fuel + 1, sts, fo, corefs, doc, cls, ts =>
    match ts with
    | [] => .error .indexError
    | t :: _ =>
      if startsTriple t then
        match parseDocstring ts with
        | .ok (d, ts1) => conjBody2 fuel sts fo corefs (doc ++ [d]) cls ts1
        | .error e => .error e
      else conjBody2 fuel sts fo corefs doc cls ts

/-- Loop body, second half: `.` is rejected; a coreference token is
recorded with the empty relative path and the loop continues; `[`, `<`
and `<!` parse the corresponding structure (setting `cls`); any other
non-docstring token is a supertype name; a second docstring token falls
through with no feats (the loop head then exits). -/
def conjBody2 : Nat → List String → Option (List (List String × OldVal)) →
    List (Option String × List (List String)) → List String → ClsTag →
    List String → Except Err ConjOut
  | 0, _, _, _, _, _, _ => .error .outOfFuel
  | fuel + 1, sts, fo, corefs, doc, cls, ts =>
    match ts with
    | [] => .error .indexError
    | t :: rest =>
      if t = "." then
        .error (.tdlParsingError "\".\" cannot appear after & in conjunction.")
      else if startsHash t then
        conjLoop fuel sts fo (corefs ++ [(some t, [[]])]) doc cls rest
      else if t = "[" then
        match parseAvm fuel ts with
        | .error e => .error e
        | .ok (feats, cfs, ts2) =>
          conjMerge fuel sts fo (some feats) corefs cfs doc cls ts2
      else if t = "<" then
        match parseConsList fuel ts with
        | .error e => .error e
        | .ok (featsOpt, cfs, ts2) =>
          conjMerge fuel sts fo featsOpt corefs cfs doc .tdlConsList ts2
      else if t = "<!" then
        match parseDiffList fuel ts with
        | .error e => .error e
        | .ok (feats, cfs, ts2) =>
          conjMerge fuel sts fo (some feats) corefs cfs doc .tdlDiffList ts2
      else if !(startsTriple t) then
        conjMerge fuel (sts ++ [t]) fo (some []) corefs [] doc cls rest
      else
        conjMerge fuel sts fo (some []) corefs [] doc cls ts

/-- End of the loop body: `feats is None` poisons `features` to `None`;
otherwise `assert features is not None` and extend; the coreferences are
extended and the loop head runs again. -/
def conjMerge : Nat → List String → Option (List (List String × OldVal)) →
    Option (List (List String × OldVal)) →
    List (Option String × List (List String)) →
    List (Option String × List (List String)) → List String → ClsTag →
    List String → Except Err ConjOut
  | 0, _, _, _, _, _, _, _, _ => .error .outOfFuel
  | fuel + 1, sts, fo, newFeats, corefs, cfs, doc, cls, ts =>
    match newFeats with
    | none => conjLoop fuel sts none (corefs ++ cfs) doc cls ts
    | some fl =>
      match fo with
      | none => .error (.assertionError ts)
      | some cur => conjLoop fuel sts (some (cur ++ fl)) (corefs ++ cfs) doc cls ts

/-- `_parse_avm(tokens)`: assert and pop `[`; unless the next token is
`]`, push a virtual `,` so the loop can unconditionally pop a separator
before each attribute-value pair. -/
def parseAvm : Nat → List String →
    Except Err (List (List String × OldVal) ×
      List (Option String × List (List String)) × List String)
  | 0, _ => .error .outOfFuel
  | fuel + 1, ts =>
    match ts with
    | [] => .error .indexError
    | "[" :: rest =>
      match rest with
      | [] => .error .indexError
      | t :: _ => avmLoop fuel [] [] (if t = "]" then rest else "," :: rest)
    | _ :: rest => .error (.assertionError rest)

/-- `while tokens[0] != ']'`: pop the separator, parse an
attribute-value pair, accumulate. -/
def avmLoop : Nat → List (List String × OldVal) →
    List (Option String × List (List String)) → List String →
    Except Err (List (List String × OldVal) ×
      List (Option String × List (List String)) × List String)
  | 0, _, _, _ => .error .outOfFuel
  | fuel + 1, feats, corefs, ts =>
    match ts with
    | [] => .error .indexError
    | "]" :: r => .ok (feats, corefs, r)
    | _ :: r =>
      match parseAttrVal fuel r with
      | .error e => .error e
      | .ok (av, cfs, ts2) => avmLoop fuel (feats ++ [av]) (corefs ++ cfs) ts2

/-- `_parse_attr_val(tokens)`: a dot-joined attribute path, then a full
conjunction as the value; collected coreference paths are prefixed with
the attribute path. -/
def parseAttrVal : Nat → List String →
    Except Err ((List String × OldVal) ×
      List (Option String × List (List String)) × List String)
  | 0, _ => .error .outOfFuel
  | fuel + 1, ts =>
    match ts with
    | [] => .error .indexError
    | t :: rest =>
      match attrPathLoop [t] rest with
      | .error e => .error e
      | .ok (path, ts1) =>
        match parseConjunction fuel ts1 with
        | .error e => .error e
        | .ok o =>
          .ok ((path, o.val),
            o.corefs.map (fun e => (e.1, e.2.map (fun p => path ++ p))),
            o.rest)

/-- `_parse_cons_list(tokens)`: assert and pop `<`, parse the element
list, then dispatch on the stop token: `...` leaves the list open, `.`
parses a dotted-pair tail placed at `last_path`, an empty list becomes
`feats = None`, and otherwise a `None` terminator is appended at
`last_path`; finally assert and pop `>`. -/
def parseConsList : Nat → List String →
    Except Err (Option (List (List String × OldVal)) ×
      List (Option String × List (List String)) × List String)
  | 0, _ => .error .outOfFuel
  | fuel + 1, ts =>
    match ts with
    | [] => .error .indexError
    | "<" :: rest =>
      match parseListW fuel consBreak rest with
      | .error e => .error e
      | .ok (feats, lastPath, corefs, ts1) =>
        match ts1 with
        | [] => .error .indexError
        | t :: rest1 =>
          if t = "..." then
            match rest1 with
            | [] => .error .indexError
            | t2 :: r2 =>
              if t2 = ">" then .ok (some feats, corefs, r2)
              else .error (.assertionError r2)
          else if t = "." then
            match parseConjunction fuel rest1 with
            | .error e => .error e
            | .ok o =>
              match o.rest with
              | [] => .error .indexError
              | t2 :: r2 =>
                if t2 = ">" then
                  .ok (some (feats ++ [(lastPath, o.val)]),
                    corefs ++ o.corefs.map
                      (fun e => (e.1, e.2.map (fun p => lastPath ++ p))),
                    r2)
                else .error (.assertionError r2)
          else
            match feats with
            | [] =>
              if t = ">" then .ok (none, corefs, rest1)
              else .error (.assertionError rest1)
            | _ =>
              if t = ">" then
                .ok (some (feats ++ [(lastPath, .pynone)]), corefs, rest1)
              else .error (.assertionError rest1)
    | _ :: rest => .error (.assertionError rest)

/-- `_parse_diff_list(tokens)`: assert and pop `<!`, parse the element
list, prefix every feature path (but not the collected coreference
paths) with `LIST`, add the `LAST` feature and the tagless tail
coreference, then assert and pop `!>`. -/
def parseDiffList : Nat → List String →
    Except Err (List (List String × OldVal) ×
      List (Option String × List (List String)) × List String)
  | 0, _ => .error .outOfFuel
  | fuel + 1, ts =>
    match ts with
    | [] => .error .indexError
    | "<!" :: rest =>
      match parseListW fuel diffBreak rest with
      | .error e => .error e
      | .ok (feats, lastPath, corefs, ts1) =>
        let feats2 : List (List String × OldVal) :=
          if feats.isEmpty then
            [(["LIST"], .pydef (OldDef.mk .tdlDefinition [] []))]
          else feats.map (fun e => ("LIST" :: e.1, e.2))
        let last2 : List String :=
          if feats.isEmpty then ["LIST"] else "LIST" :: lastPath
        let feats3 := feats2 ++ [(["LAST"], .pydef (OldDef.mk .tdlDefinition [] []))]
        let corefs3 := corefs ++ [(none, [last2, ["LAST"]])]
        match ts1 with
        | [] => .error .indexError
        | t2 :: r2 =>
          if t2 = "!>" then .ok (feats3, corefs3, r2)
          else .error (.assertionError r2)
    | _ :: rest => .error (.assertionError rest)

/-- `_parse_list(tokens, break_on)`: after the loop, the final path has
its `FIRST` segment replaced by `REST` (`path.replace(LIST_HEAD,
LIST_TAIL)`). -/
def parseListW : Nat → (String → Bool) → List String →
    Except Err (List (List String × OldVal) × List String ×
      List (Option String × List (List String)) × List String)
  | 0, _, _ => .error .outOfFuel
  | fuel + 1, brk, ts =>
    match parseListLoop fuel brk [] [] ["FIRST"] ts with
    | .error e => .error e
    | .ok (feats, path, corefs, ts1) =>
      .ok (feats, path.map (fun s => if s = "FIRST" then "REST" else s),
        corefs, ts1)

/-- The `while tokens[0] not in break_on` loop of `_parse_list`: parse a
conjunction at the current path, record the prefixed coreferences, then
step past `,` (deepening the path), break on `.` without popping it, or
re-enter the loop otherwise. -/
def parseListLoop : Nat → (String → Bool) → List (List String × OldVal) →
    List (Option String × List (List String)) → List String → List String →
    Except Err (List (List String × OldVal) × List String ×
      List (Option String × List (List String)) × List String)
  | 0, _, _, _, _, _ => .error .outOfFuel
  | fuel + 1, brk, feats, corefs, path, ts =>
    match ts with
    | [] => .error .indexError
    | t :: _ =>
      if brk t then .ok (feats, path, corefs, ts)
      else
        match parseConjunction fuel ts with
        | .error e => .error e
        | .ok o =>
          match o.rest with
          | [] => .error .indexError
          | "," :: r =>
            parseListLoop fuel brk (feats ++ [(path, o.val)])
              (corefs ++ o.corefs.map
                (fun e => (e.1, e.2.map (fun p => path ++ p))))
              ("REST" :: path) r
          | "." :: _ =>
            .ok (feats ++ [(path, o.val)], path,
              corefs ++ o.corefs.map
                (fun e => (e.1, e.2.map (fun p => path ++ p))),
              o.rest)
          | _ =>
            parseListLoop fuel brk (feats ++ [(path, o.val)])
              (corefs ++ o.corefs.map
                (fun e => (e.1, e.2.map (fun p => path ++ p))))
              path o.rest
end

/-- The `TdlType` a successful `_parse_typedef` yields (its
`FeatureStructure` content equals the definition's, re-set key by key,
so the definition is carried directly). -/
structure TdlTypeRes where
  identifier : String
  definition : OldDef
  coreferences : List (Option String × List String)
  docstring : List String

/-- `_parse_typedef(data)` before its exception handlers: pop the
identifier and assignment operator, parse affixes (discarded) and the
conjunction, merge the coreferences, collect an optional pre-dot
docstring, assert and pop the final `.`, then enforce that a non-`:+`
definition has supertypes (reading `.supertypes` on a `None` or string
conjunction value is an `AttributeError`, as it is inside
`TdlType.__init__` on the `:+` path). -/
def parseTypedefRaw (fuel : Nat) (ts : List String) : Except Err TdlTypeRes :=
  match ts with
  | [] => .error .indexError
  | identifier :: ts1 =>
    match ts1 with
    | [] => .error .indexError
    | assignment :: ts2 =>
      match parseAffixes ts2 with
      | .error e => .error e
      | .ok (_affixes, ts3) =>
        match parseConjunction fuel ts3 with
        | .error e => .error e
        | .ok o =>
          match makeCoreferences o.corefs with
          | .error e => .error e
          | .ok mcorefs =>
            match o.rest with
            | [] => .error .indexError
            | t :: _ =>
              match (if startsTriple t then
                       match parseDocstring o.rest with
                       | .ok dr => Except.ok (o.doc ++ [dr.1], dr.2)
                       | .error e => Except.error e
                     else .ok (o.doc, o.rest) :
                     Except Err (List String × List String)) with
              | .error e => .error e
              | .ok (doc2, ts5) =>
                match ts5 with
                | [] => .error .indexError
                | tok :: ts6 =>
                  if tok = "." then
                    if assignment ≠ ":+" then
                      match o.val with
                      | .pydef d =>
                        if d.supertypes.isEmpty then
                          .error (.tdlParsingError "Type definition requires supertypes.")
                        else .ok ⟨identifier, d, mcorefs, doc2⟩
                      | _ => .error .attributeError
                    else
                      match o.val with
                      | .pydef d => .ok ⟨identifier, d, mcorefs, doc2⟩
                      | _ => .error .attributeError
                  else .error (.assertionError ts6)

/-- `_parse_typedef(data)`: the raw parse with the source's exception
handlers applied — any `AssertionError` becomes a `TdlParsingError`
listing the remaining tokens, and `StopIteration`/`IndexError` become
`Unexpected termination.`; everything else propagates. -/
def parseTypedef (fuel : Nat) (ts : List String) : Except Err TdlTypeRes :=
  match parseTypedefRaw fuel ts with
  | .error (.assertionError rem) =>
    .error (.tdlParsingError ("Remaining tokens: " ++ String.intercalate ", " rem))
  | .error .stopIteration => .error (.tdlParsingError "Unexpected termination.")
  | .error .indexError => .error (.tdlParsingError "Unexpected termination.")
  | r => r

/-! Auxiliary descriptions of the maps built by `append`/`terminate` and
lemmas connecting them to the path-writing primitives. -/

/-- The feature map of a `ConsList` after appending the given values (and
before termination): a `FIRST`/`REST` chain with no tail entry in its last
cell. -/
def chainA : List FVal → List (String × FVal)
  | [] => []
  | [v] => [("FIRST", v)]
  | v :: rest => [("FIRST", v), ("REST", .node (chainA rest))]

/-- The feature map of a `ConsList` over the given values after
`terminate(end)` wrote `end` at `_last_path + '.' + REST`: the appended
chain with one extra child-only cell `[REST end]` below the last cell. -/
def chainT : List FVal → FVal → List (String × FVal)
  | [], e => [("REST", e)]
  | v :: rest, e => [("FIRST", v), ("REST", .node (chainT rest e))]

/-- The `ConsList` state reached after appending `vs` to a fresh list. -/
def stateA (vs : List FVal) : ConsListS :=
  { avm := some (chainA vs), lastPath := List.replicate vs.length "REST",
    terminated := false }

/-- The `(path, value)` pairs `_collect_list_items` returns on a
terminated chain (the terminator cell carries no `FIRST`, so it
contributes nothing). -/
def chainPairs : List FVal → List (String × FVal)
  | [] => []
  | v :: rest => ("FIRST", v) :: (chainPairs rest).map (fun e => ("REST." ++ e.1, e.2))

lemma chainPairs_snd (vs : List FVal) : (chainPairs vs).map Prod.snd = vs := by
  induction vs with
  | nil => rfl
  | cons v rest ih =>
    simp [chainPairs, List.map_map, Function.comp]
    simpa [List.map_map, Function.comp] using ih

lemma fsSetSegs_chainA (vs : List FVal) (v : FVal) :
    fsSetSegs (chainA vs) (List.replicate vs.length "REST" ++ ["FIRST"]) v
      = some (chainA (vs ++ [v])) := by
  induction vs with
  | nil => rfl
  | cons w rest ih =>
    cases rest with
    | nil => rfl
    | cons x r =>
      have hne : ¬ ("FIRST" = "REST") := by decide
      simp only [List.length_cons, List.replicate_succ, List.cons_append,
        chainA, fsSetSegs, assocGet, if_neg hne]
      simp only [List.length_cons, List.replicate_succ, List.cons_append,
        chainA] at ih
      simp [ih, assocSet, if_neg hne, chainA]

lemma fsSetSegs_chainT (vs : List FVal) (e : FVal) :
    fsSetSegs (chainA vs) (List.replicate vs.length "REST" ++ ["REST"]) e
      = some (chainT vs e) := by
  induction vs with
  | nil => rfl
  | cons w rest ih =>
    cases rest with
    | nil => rfl
    | cons x r =>
      have hne : ¬ ("FIRST" = "REST") := by decide
      simp only [List.length_cons, List.replicate_succ, List.cons_append,
        chainA, fsSetSegs, assocGet, if_neg hne]
      simp only [List.length_cons, List.replicate_succ, List.cons_append,
        chainA] at ih
      simp [ih, assocSet, if_neg hne, chainT]

lemma consAppend_stateA (vs : List FVal) (v : FVal) :
    consAppend (stateA vs) v = .ok (stateA (vs ++ [v])) := by
  have h := fsSetSegs_chainA vs v
  simp [consAppend, stateA, h, List.replicate_succ']

lemma consAppendAll_stateA (ws vs : List FVal) :
    consAppendAll (stateA ws) vs = .ok (stateA (ws ++ vs)) := by
  induction vs generalizing ws with
  | nil => simp [consAppendAll]
  | cons v rest ih =>
    rw [consAppendAll, consAppend_stateA]
    show consAppendAll (stateA (ws ++ [v])) rest = _
    rw [ih]
    simp

lemma consTerminate_stateA (v : FVal) (rest : List FVal) (e : FVal) :
    consTerminate (stateA (v :: rest)) e
      = .ok { avm := some (chainT (v :: rest) e),
              lastPath := List.replicate (v :: rest).length "REST",
              terminated := !(endIsList e) } := by
  have h := fsSetSegs_chainT (v :: rest) e
  simp only [List.length_cons, List.replicate_succ, List.cons_append] at h ⊢
  simp [consTerminate, stateA, List.replicate_succ, h]

lemma consListMk_cons (v : FVal) (rest : List FVal) (e : FVal) :
    consListMk (v :: rest) e
      = .ok { avm := some (chainT (v :: rest) e),
              lastPath := List.replicate (v :: rest).length "REST",
              terminated := !(endIsList e) } := by
  have h0 : stateA [] = { avm := some [], lastPath := [], terminated := false } := rfl
  rw [consListMk, ← h0, consAppendAll_stateA]
  show consTerminate (stateA ([] ++ v :: rest)) e = _
  rw [List.nil_append, consTerminate_stateA]

lemma collectItemsF_chainT (vs : List FVal) (e : FVal) (fuel : Nat)
    (h : vs.length + 1 ≤ fuel) :
    collectItemsF fuel (some (.node (chainT vs e))) = .ok (chainPairs vs) := by
  induction vs generalizing fuel with
  | nil =>
    match fuel, h with
    | f + 1, _ => simp [collectItemsF, chainT, assocGet, chainPairs]
  | cons v rest ih =>
    match fuel, h with
    | f + 1, h =>
      have hf : rest.length + 1 ≤ f := by
        simpa [Nat.succ_le_succ_iff] using h
      simp [collectItemsF, chainT, assocGet, ih f hf, chainPairs]

lemma fvSize_pos (v : FVal) : 1 ≤ fvSize v := by
  cases v <;> simp [fvSize]

lemma chainT_size (vs : List FVal) (e : FVal) :
    vs.length + 1 ≤ fvSize (.node (chainT vs e)) := by
  induction vs with
  | nil => simp [chainT, fvSize, mapFvSize]
  | cons v rest ih =>
    have h1 := fvSize_pos v
    simp only [chainT, fvSize, mapFvSize, List.length_cons] at *
    omega

lemma collectItems_chainT (vs : List FVal) (e : FVal) :
    collectItems (some (.node (chainT vs e))) = .ok (chainPairs vs) := by
  apply collectItemsF_chainT
  have := chainT_size vs e
  simp only [collectItems, osize] at *
  omega

/-- C1: the section-3 termination table.  The claim fails on the code:
`ConsList.terminate` writes the terminator at `_last_path + '.' + REST`,
one `REST` level below the position the table specifies, so for `< a >`
(one element, end `*null*`) the chain's `REST` feature is a nested
structure `[REST *null*]` rather than `*null*` itself, and for
`< a, ... >` the value `*list*` is likewise written at `REST.REST`
instead of the chain being left open at the last `REST`.  This theorem
evaluates the embedded constructor at those failing inputs. -/
theorem tdl_C1_terminate_misplaced :
    consListMk [FVal.term 0] (FVal.atom "*null*")
      = .ok { avm := some [("FIRST", .term 0),
                           ("REST", .node [("REST", .atom "*null*")])],
              lastPath := ["REST"], terminated := true }
    ∧ assocGet [("FIRST", FVal.term 0),
                ("REST", FVal.node [("REST", FVal.atom "*null*")])] "REST"
      = some (.node [("REST", .atom "*null*")])
    ∧ consListMk [FVal.term 0] (FVal.atom "*list*")
      = .ok { avm := some [("FIRST", .term 0),
                           ("REST", .node [("REST", .atom "*list*")])],
              lastPath := ["REST"], terminated := false } :=
  ⟨rfl, rfl, rfl⟩

/-- C5: a diff-list always has exactly the two top-level features `LIST`
and `LAST` sharing one tagless coreference, and `values()` returns the
listed elements in order.  The claim fails on the code for the empty
diff-list: `DiffList([])` stores a bare `Conjunction` under `LIST`, and
`values()` hands that `Conjunction` to `_collect_list_items`, whose
`d.get(...)` call raises `AttributeError` instead of returning `[]`.
For non-empty diff-lists `values()` does return the elements in order.
This theorem evaluates the embedded code at both inputs. -/
theorem tdl_C5_empty_values_error :
    diffListMk [] = .ok { avm := [("LIST", .conj [.coref none]),
                                  ("LAST", .conj [.coref none])] }
    ∧ diffListValues { avm := [("LIST", .conj [.coref none]),
                               ("LAST", .conj [.coref none])] }
      = .error .attributeError
    ∧ diffListMk [FVal.term 0, FVal.term 1]
      = .ok { avm :=
          [("LIST", .node [("FIRST", .term 0),
                           ("REST", .node [("FIRST", .term 1),
                                           ("REST", .node [("REST", .coref none)])])]),
           ("LAST", .conj [.coref none])] }
    ∧ diffListValues { avm :=
          [("LIST", .node [("FIRST", .term 0),
                           ("REST", .node [("FIRST", .term 1),
                                           ("REST", .node [("REST", .coref none)])])]),
           ("LAST", .conj [.coref none])] }
      = .ok [.term 0, .term 1] :=
  ⟨rfl, rfl, rfl, rfl⟩

/-- C8: appending to a `ConsList` whose `terminated` flag is true raises
the structural error `Cannot append to a closed list.`; the returned
error carries no updated state, so the feature structure is unchanged. -/
theorem tdl_C8_append_closed (s : ConsListS) (v : FVal)
    (h : s.terminated = true) :
    consAppend s v = .error (.tdlError "Cannot append to a closed list.") := by
  cases hm : s.avm with
  | none => simp [consAppend, hm]
  | some m => simp [consAppend, hm, h]

theorem tdl_C8_append_closed_witness :
    consAppend { avm := none, lastPath := [], terminated := true } (.term 0)
      = .error (.tdlError "Cannot append to a closed list.") :=
  tdl_C8_append_closed { avm := none, lastPath := [], terminated := true }
    (.term 0) rfl

/-- C10: for every list of values and every end accepted by the
`ConsList` constructor, `values()` returns exactly the constructor's
values in their original order (in particular `[]` for an empty list
terminated with `*null*` or `*list*`). -/
theorem tdl_C10_values_roundtrip (vs : List FVal) (e : FVal) (s : ConsListS)
    (h : consListMk vs e = .ok s) : consValues s = .ok vs := by
  cases vs with
  | nil =>
    by_cases hn : endIsNull e = true
    · have : consListMk [] e
          = .ok { avm := none, lastPath := [], terminated := !(endIsList e) } := by
        simp [consListMk, consAppendAll, consTerminate, hn]
      rw [this] at h
      cases h
      simp [consValues]
    · by_cases hl : endIsList e = true
      · have : consListMk [] e
            = .ok { avm := some [], lastPath := [], terminated := !(endIsList e) } := by
          simp [consListMk, consAppendAll, consTerminate, hn, hl]
        rw [this] at h
        cases h
        simp [consValues, collectItems, osize, fvSize, mapFvSize,
          collectItemsF, assocGet, Except.map]
      · have : consListMk [] e
            = .error (.tdlError "Empty list must be *list* or *null*") := by
          simp [consListMk, consAppendAll, consTerminate, hn, hl]
        rw [this] at h
        cases h
  | cons v rest =>
    rw [consListMk_cons] at h
    cases h
    simp [consValues, collectItems_chainT, chainPairs_snd, Except.map]

/-- C3: through the default `parse` pipeline (`_parse` → `_parse_typedef`),
whenever the conjunction of a definition parses to a `TdlDefinition` with
no supertype terms and the definition is otherwise well formed (its
coreferences merge and the closing dot follows), the same token list
succeeds under `:+` and fails under `:=` with
`Type definition requires supertypes.`. -/
theorem tdl_C3_supertypes_required (fuel : Nat) (identifier : String)
    (ts2 ts3 ts6 : List String) (aff : Option (List (String × String)))
    (o : ConjOut) (mc : List (Option String × List String)) (d : OldDef)
    (h0 : parseAffixes ts2 = .ok (aff, ts3))
    (h1 : parseConjunction fuel ts3 = .ok o)
    (h2 : o.val = .pydef d)
    (h3 : d.supertypes = [])
    (h4 : makeCoreferences o.corefs = .ok mc)
    (h5 : o.rest = "." :: ts6) :
    parseTypedef fuel (identifier :: ":+" :: ts2)
      = .ok ⟨identifier, d, mc, o.doc⟩
    ∧ parseTypedef fuel (identifier :: ":=" :: ts2)
      = .error (.tdlParsingError "Type definition requires supertypes.") := by
  have hst : startsTriple "." = false := rfl
  constructor
  · have hraw : parseTypedefRaw fuel (identifier :: ":+" :: ts2)
        = .ok ⟨identifier, d, mc, o.doc⟩ := by
      simp [parseTypedefRaw, h0, h1, h4, h5, h2, h3, hst]
    simp [parseTypedef, hraw]
  · have hraw : parseTypedefRaw fuel (identifier :: ":=" :: ts2)
        = .error (.tdlParsingError "Type definition requires supertypes.") := by
      simp [parseTypedefRaw, h0, h1, h4, h5, h2, h3, hst]
    simp [parseTypedef, hraw]

theorem tdl_C3_supertypes_required_witness :
    parseTypedef 20 ["a", ":+", "[", "ATTR", "v", "]", "."]
      = .ok ⟨"a", OldDef.mk .tdlDefinition []
              [("ATTR", .pydef (OldDef.mk .tdlDefinition ["v"] []))], [], []⟩
    ∧ parseTypedef 20 ["a", ":=", "[", "ATTR", "v", "]", "."]
      = .error (.tdlParsingError "Type definition requires supertypes.") :=
  tdl_C3_supertypes_required 20 "a" ["[", "ATTR", "v", "]", "."]
    ["[", "ATTR", "v", "]", "."] [] none
    ⟨.pydef (OldDef.mk .tdlDefinition []
        [("ATTR", .pydef (OldDef.mk .tdlDefinition ["v"] []))]), [], [], ["."]⟩
    [] (OldDef.mk .tdlDefinition []
        [("ATTR", .pydef (OldDef.mk .tdlDefinition ["v"] []))])
    rfl rfl rfl rfl rfl rfl

/-- C2 counterexample: the claim requires at least two DISTINCT paths
per tag and an error identifying the offending tag and lone path.  The
code (a) counts paths with multiplicity, so a tag recorded twice at the
same path passes although it has a single distinct path, and (b) when it
does fail, formats the message from the leaked loop variables — the last
input record — not the offender: below, `#1` is solitary but the message
names `#2` with path list `['B']`. -/
theorem tdl_C2_counterexample :
    makeCoreferences [(some "#1", [["F"]]), (some "#1", [["F"]])]
      = .ok [(some "#1", ["F", "F"])]
    ∧ (["F", "F"] : List String).dedup.length = 1
    ∧ makeCoreferences [(some "#1", [["F"]]), (some "#2", [["A"]]),
                        (some "#2", [["B"]])]
      = .error (.tdlError ("Solitary coreference: #2\n[\x27B\x27]")) := by
  refine ⟨rfl, by decide, rfl⟩

/-- C2 amended: every coreference record of the merged list (labeled
tags merged by tag in first-occurrence order, tagless records appended)
must have at least two paths COUNTED WITH MULTIPLICITY, in which case
`_make_coreferences` returns the merged list; otherwise it raises a
`TdlError` whose `Solitary coreference` message reports the tag and
paths of the last recorded (pre-merge) coreference entry, not
necessarily the offending one. -/
theorem tdl_C2_amended (corefs : List (Option String × List (List String))) :
    ((mergedView corefs).all (fun e => decide (2 ≤ e.2.length)) = true →
      makeCoreferences corefs = .ok (mergedView corefs))
    ∧ ((mergedView corefs).all (fun e => decide (2 ≤ e.2.length)) = false →
      makeCoreferences corefs = .error (.tdlError (solitaryMsg corefs))) := by
  constructor
  · intro h
    simp [makeCoreferences, h]
  · intro h
    simp [makeCoreferences, h]

theorem tdl_C2_amended_witness :
    makeCoreferences [(some "#1", [["F"]]), (some "#1", [["G", "H"]])]
      = .ok [(some "#1", ["F", "G.H"])]
    ∧ makeCoreferences [(some "#1", [["F"]])]
      = .error (.tdlError ("Solitary coreference: #1\n[\x27F\x27]")) :=
  ⟨(tdl_C2_amended [(some "#1", [["F"]]), (some "#1", [["G", "H"]])]).1 rfl,
   (tdl_C2_amended [(some "#1", [["F"]])]).2 rfl⟩

/-- C4: the claim says parsing `identifier := %prefix-or-%suffix`
followed by subpattern pairs yields an `InflRule` with the marker text
and the ordered `(match, replacement)` pairs.  The affix scanning half
does hold (`_parse_tdl_affixes` collects the marker text and the ordered
pairs, conjuncts two and three), but no `InflRule` is ever produced:
its constructor delegates to `TdlType.__init__`, which reads
`definition.supertypes` on the parsed `Conjunction` and always raises
`AttributeError` (conjunct one). -/
theorem tdl_C4_inflrule_attrerror :
    (∀ (identifier affixType : String) (affix : List (String × String))
        (terms : List PyVal),
      inflRuleMk identifier affixType affix terms = .error .attributeError)
    ∧ parseTdlAffixes [⟨21, "suffix", 1⟩, ⟨22, "a b", 1⟩, ⟨24, "c", 1⟩,
                       ⟨10, ".", 1⟩]
      = .ok ("suffix", [("a", "b")], [⟨24, "c", 1⟩, ⟨10, ".", 1⟩])
    ∧ parseTdlAffixes [⟨21, "prefix", 1⟩, ⟨22, "ab* ab", 1⟩, ⟨22, "a b", 1⟩,
                       ⟨24, "c", 1⟩]
      = .ok ("prefix", [("ab*", "ab"), ("a", "b")], [⟨24, "c", 1⟩]) :=
  ⟨fun _ _ _ _ => rfl, rfl, rfl⟩

lemma pySize_mem_lt {v : PyVal} {ts : List PyVal} (h : v ∈ ts) :
    pySize v < pySize (.conj ts) := by
  have hlist : pySize v < pyListSize ts + 1 := by
    induction ts with
    | nil => cases h
    | cons w rest ih =>
      rcases List.mem_cons.mp h with rfl | hm
      · simp [pyListSize]
        omega
      · have := ih hm
        simp [pyListSize] at *
        omega
  simpa [pySize] using hlist

lemma conjAdd_atom {v : PyVal} (hv : v.isTerm = true) (ts : List PyVal) :
    conjAdd ts v = .ok (ts ++ [v]) := by
  cases v <;> simp_all [conjAdd, PyVal.isTerm]

lemma conjAddAll_flat (inner : List PyVal) :
    ∀ ts, inner.all PyVal.isTerm = true →
      conjAddAll ts inner = .ok (ts ++ inner) := by
  induction inner with
  | nil => intro ts _; simp [conjAddAll]
  | cons v rest ih =>
    intro ts h
    simp only [List.all_cons, Bool.and_eq_true] at h
    rw [conjAddAll, conjAdd_atom h.1]
    show conjAddAll (ts ++ [v]) rest = _
    rw [ih (ts ++ [v]) h.2]
    simp

lemma conjAddAll_atomic_aux (inner : List PyVal) :
    ∀ ts ts2,
      (∀ v ∈ inner, ∀ us us2, us.all PyVal.isTerm = true →
        conjAdd us v = .ok us2 → us2.all PyVal.isTerm = true) →
      ts.all PyVal.isTerm = true →
      conjAddAll ts inner = .ok ts2 → ts2.all PyVal.isTerm = true := by
  induction inner with
  | nil =>
    intro ts ts2 _ hts h
    rw [conjAddAll] at h
    cases h
    exact hts
  | cons v rest ih =>
    intro ts ts2 hmem hts h
    rw [conjAddAll] at h
    cases hadd : conjAdd ts v with
    | error e => rw [hadd] at h; cases h
    | ok us2 =>
      rw [hadd] at h
      exact ih us2 ts2 (fun w hw => hmem w (List.mem_cons_of_mem _ hw))
        (hmem v (List.mem_cons_self _ _) ts us2 hts hadd) h

lemma conjAdd_atomic_bound (n : Nat) :
    ∀ (v : PyVal), pySize v ≤ n → ∀ ts ts2, ts.all PyVal.isTerm = true →
      conjAdd ts v = .ok ts2 → ts2.all PyVal.isTerm = true := by
  induction n with
  | zero =>
    intro v hv
    cases v <;> simp [pySize, pyListSize] at hv
  | succ n ih =>
    intro v hv ts ts2 hts h
    cases v with
    | conj inner =>
      rw [conjAdd] at h
      refine conjAddAll_atomic_aux inner ts ts2 ?_ hts h
      intro w hw us us2 hus hadd
      have hlt : pySize w < pySize (.conj inner) := pySize_mem_lt hw
      exact ih w (by omega) us us2 hus hadd
    | other k => simp [conjAdd, PyVal.isTerm] at h
    | typeIdentifier t d =>
      simp only [conjAdd, PyVal.isTerm, if_pos] at h
      cases h
      simp_all [List.all_append, PyVal.isTerm]
    | strTerm t d =>
      simp only [conjAdd, PyVal.isTerm, if_pos] at h
      cases h
      simp_all [List.all_append, PyVal.isTerm]
    | regexTerm t d =>
      simp only [conjAdd, PyVal.isTerm, if_pos] at h
      cases h
      simp_all [List.all_append, PyVal.isTerm]
    | avmT k =>
      simp only [conjAdd, PyVal.isTerm, if_pos] at h
      cases h
      simp_all [List.all_append, PyVal.isTerm]
    | corefT tag =>
      simp only [conjAdd, PyVal.isTerm, if_pos] at h
      cases h
      simp_all [List.all_append, PyVal.isTerm]

/-- C7: `Conjunction.add` flattens: `_terms` only ever contains atomic
`Term`s (never a nested `Conjunction`), both when a `Conjunction` object
is constructed from a list of terms and across any successful `add`
call; and adding an (already flat) `Conjunction` is the same as
appending its terms in order, so flattening is idempotent. -/
theorem tdl_C7_flatten :
    (∀ (v : PyVal) (ts ts2 : List PyVal), ts.all PyVal.isTerm = true →
        conjAdd ts v = .ok ts2 → ts2.all PyVal.isTerm = true)
    ∧ (∀ (terms res : List PyVal), conjMk terms = .ok res →
        res.all PyVal.isTerm = true)
    ∧ (∀ (ts inner : List PyVal), inner.all PyVal.isTerm = true →
        conjAdd ts (.conj inner) = .ok (ts ++ inner)) := by
  refine ⟨fun v => conjAdd_atomic_bound (pySize v) v le_rfl, ?_, ?_⟩
  · intro terms res h
    refine conjAddAll_atomic_aux terms [] res ?_ rfl h
    intro v _ us us2 hus hadd
    exact conjAdd_atomic_bound (pySize v) v le_rfl us us2 hus hadd
  · intro ts inner h
    rw [conjAdd]
    exact conjAddAll_flat inner ts h

theorem tdl_C7_flatten_witness :
    conjAdd [PyVal.typeIdentifier "a" none]
        (.conj [PyVal.strTerm "b" none, PyVal.avmT 0])
      = .ok [PyVal.typeIdentifier "a" none, PyVal.strTerm "b" none,
             PyVal.avmT 0] :=
  tdl_C7_flatten.2.2 [PyVal.typeIdentifier "a" none]
    [PyVal.strTerm "b" none, PyVal.avmT 0] rfl

/-- C6: the claim says `Conjunction.string()` returns the first `String`
term, or `None`, and never fails.  The code fails: its loop tests
`isinstance(t, String)` with `t` unbound, so any conjunction with at
least one term (even a `String` one) raises `NameError`; only the empty
conjunction returns `None`.  The last conjunct records the spec's
intended behavior on the failing input for contrast. -/
theorem tdl_C6_string_unbound :
    conjString [PyVal.strTerm "x" none] = .error .nameError
    ∧ conjString [] = .ok none
    ∧ conjStringIntended [PyVal.strTerm "x" none]
        = some (.strTerm "x" none) :=
  ⟨rfl, rfl, rfl⟩

/-- C9: `TypeIdentifier`, `String` and `Regex` are `str` subclasses that
do not override `__eq__`, so equality compares only the text payload:
any two such terms with the same text are equal regardless of subclass
and docstring, each equals the plain string of its text, and two terms
are equal exactly when their texts are equal. -/
theorem tdl_C9_typeterm_eq (s t : String) (d1 d2 d3 : Option String)
    (v1 v2 : TTVariant) :
    ttEq ⟨v1, s, d1⟩ ⟨v2, s, d2⟩ = true
    ∧ ttEqStr ⟨v1, s, d1⟩ s = true
    ∧ (ttEq ⟨v1, s, d1⟩ ⟨v2, t, d3⟩ = true ↔ s = t) := by
  refine ⟨?_, ?_, ?_⟩ <;> simp [ttEq, ttEqStr]

theorem tdl_C10_values_roundtrip_witness :
    consListMk [FVal.term 0, FVal.term 1] (FVal.atom "*null*")
      = .ok (ConsListS.mk
              (some [("FIRST", .term 0),
                     ("REST", .node [("FIRST", .term 1),
                                     ("REST", .node [("REST", .atom "*null*")])])])
              ["REST", "REST"] true)
    ∧ consValues (ConsListS.mk
              (some [("FIRST", .term 0),
                     ("REST", .node [("FIRST", .term 1),
                                     ("REST", .node [("REST", .atom "*null*")])])])
              ["REST", "REST"] true)
      = .ok [.term 0, .term 1] :=
  ⟨rfl, tdl_C10_values_roundtrip [FVal.term 0, FVal.term 1] (FVal.atom "*null*") _ rfl⟩

end Tdl
